import Mathlib

/-!
Shallow embedding of the Virtual-painter repository: the raster canvas
(src/drawing/canvas.py), the hand / face / eye gesture controllers
(src/controllers/hand_controller.py, face_controller.py, eye_controller.py)
and the per-frame state transition of the main loop (src/app.py), together
with proofs settling the frozen claims about them.

Conventions of the embedding:
* Pixel coordinates are integer pairs (the Python code converts normalized
  landmarks with int(lm.x * w), int(lm.y * h)); colors are BGR triples of
  naturals.
* The cv2.line rasterizer is modelled by a deterministic pixel predicate
  (onSeg): a pixel is painted when its squared distance to the segment is
  at most the squared half-thickness, computed in exact integer
  arithmetic.  Every theorem below depends only on this model being a
  deterministic function of (endpoints, color, thickness), never on the
  exact pixel set a segment covers.
* Wall-clock time (Python time.time()) is an exact rational input carried
  on each frame observation.
* Euclidean distances the controllers compute with math.hypot enter the
  embedding as exact rational observation values (they are functions of
  the opaque landmark oracle's per-frame output); the threshold
  comparisons mirror the source formulas.
* The Canvas height, width and background color are the constructor
  parameters of src/drawing/canvas.py (defaults 720, 1280, white); the
  definitions and theorems are stated for arbitrary values of these
  parameters, and concrete witnesses instantiate small grids.
-/

/-- Pixel coordinate pair, as produced by int(lm.x * w), int(lm.y * h). -/
abbrev Point := Int × Int

/-- BGR color triple (the OpenCV convention used throughout app.py). -/
abbrev Color := Nat × Nat × Nat

/-- Squared euclidean norm of an integer vector. -/
def sqNorm (v : Int × Int) : Int := v.1 * v.1 + v.2 * v.2

/-- Deterministic model of the cv2.line rasterizer used by
Canvas.draw_line: pixel q is painted by a segment from p1 to p2 of
thickness t exactly when its squared distance to the segment is at most
the square of the integer half-thickness t / 2, evaluated in exact
integer arithmetic (the point-to-segment distance is computed through the
clamped projection parameter, scaled so that no division occurs). -/
def onSeg (p1 p2 : Point) (t : Nat) (q : Point) : Bool :=
  let d : Int × Int := (p2.1 - p1.1, p2.2 - p1.2)
  let v : Int × Int := (q.1 - p1.1, q.2 - p1.2)
  let dd : Int := sqNorm d
  let r : Int := (t : Int) / 2
  if dd = 0 then
    sqNorm v ≤ r * r
  else
    let s : Int := max 0 (min dd (v.1 * d.1 + v.2 * d.2))
    sqNorm (v.1 * dd - d.1 * s, v.2 * dd - d.2 * s) ≤ r * r * dd * dd

/-- Background-color grid of the given dimensions: the numpy array
np.full((height, width, 3), bg_color) of Canvas.__init__, as a list of
rows of BGR triples. -/
def mkGrid (h w : Nat) (c : Color) : List (List Color) :=
  List.replicate h (List.replicate w c)

/-- The Canvas class of src/drawing/canvas.py: fixed dimensions, a
background color and the mutable raster (here carried functionally). -/
structure Canvas where
  height : Nat
  width : Nat
  bg_color : Color
  canvas : List (List Color)
deriving DecidableEq, Repr

/-- Canvas.__init__: a blank canvas filled with bg_color. -/
def Canvas.init (h w : Nat) (bg : Color) : Canvas :=
  { height := h, width := w, bg_color := bg, canvas := mkGrid h w bg }

/-- Canvas.reset: clear the raster back to the background color. -/
def Canvas.reset (cv : Canvas) : Canvas :=
  { cv with canvas := mkGrid cv.height cv.width cv.bg_color }

/-- Canvas.draw_line: paint every pixel the rasterizer model covers with
the given color, leaving the rest of the raster untouched. -/
def Canvas.draw_line (cv : Canvas) (p1 p2 : Point) (col : Color) (t : Nat) : Canvas :=
  { cv with canvas :=
      cv.canvas.mapIdx fun y row =>
        row.mapIdx fun x c =>
          if onSeg p1 p2 t ((x : Int), (y : Int)) then col else c }

/-- A sealed stroke as app.py records it in stroke_history: the list of
accumulated points and the single color it was sealed with. -/
structure Stroke where
  points : List Point
  color : Color
deriving DecidableEq, Repr

example : onSeg (0, 0) (18, 0) 15 (5, 0) = true := by decide

example : onSeg (18, 0) (19, 0) 15 (5, 0) = false := by decide

/-- The brush size fixed at the top of app.py's main. -/
def brush_size : Nat := 15

/-- The color cycle of app.py's main (BGR). -/
def color_list : List Color := [(255, 0, 0), (0, 255, 0), (0, 0, 255), (0, 255, 255)]

/-- Per-frame inputs of the gesture-to-canvas translation step of app.py's
main loop: the classifier outputs read at the top of the loop body
(hand.get_brush_position(), hand.get_pinch_status(),
face.get_mouth_status(), face.get_eyebrow_status(),
eye.get_double_blink(), eye.get_left_wink(), eye.get_right_wink()) and
the frame's wall-clock time. -/
structure FrameInput where
  index_pos : Option Point
  pinch : Bool
  mouth : Bool
  eyebrow : Bool
  dblink : Bool
  lwink : Bool
  rwink : Bool
  t : ℚ
deriving DecidableEq, Repr

/-- The mutable state app.py's main loop carries across frames: color
selection, the two stroke stacks, the smoothing/eraser anchor positions,
the stroke being accumulated, the color-change debounce timestamp and the
canvas object. Stacks are Python lists: push appends at the right end,
pop removes from the right end, iteration runs left to right. -/
structure LoopState where
  color_index : Nat
  current_color : Color
  stroke_history : List Stroke
  redo_stack : List Stroke
  prev_index_pos : Option Point
  prev_eraser_pos : Option Point
  current_stroke : List Point
  last_color_change_time : ℚ
  canvas : Canvas
deriving DecidableEq, Repr

/-- The initial loop state of app.py's main: color index 0 (blue in BGR),
empty stacks, no remembered positions, debounce timestamp 0, and a fresh
canvas of the given dimensions and background color. -/
def initState (h w : Nat) (bg : Color) : LoopState :=
  { color_index := 0
    current_color := (255, 0, 0)
    stroke_history := []
    redo_stack := []
    prev_index_pos := none
    prev_eraser_pos := none
    current_stroke := []
    last_color_change_time := 0
    canvas := Canvas.init h w bg }

/-- The else-arm of the draw conditional (app.py lines 80-87): when the
drawing condition fails, a non-empty accumulated stroke is sealed with the
current color and pushed onto stroke_history, the accumulator is emptied,
and the brush anchor is dropped. -/
def sealBranch (s : LoopState) : LoopState :=
  if s.current_stroke.isEmpty then
    { s with prev_index_pos := none }
  else
    { s with
        stroke_history := s.stroke_history ++ [⟨s.current_stroke, s.current_color⟩]
        current_stroke := []
        prev_index_pos := none }

/-- The draw-or-seal section of the loop body (app.py lines 66-87): when a
brush position is present, the pinch is held and the mouth is closed, a
segment from the previous anchor is painted and the new position appended
to the accumulator (nothing is appended on the first frame of a run, when
no previous anchor exists); otherwise the accumulator is sealed. -/
def drawSealStep (i : FrameInput) (s : LoopState) : LoopState :=
  match i.index_pos with
  | some p =>
      if i.pinch && !i.mouth then
        match s.prev_index_pos with
        | some q =>
            { s with
                canvas := s.canvas.draw_line q p s.current_color brush_size
                current_stroke := s.current_stroke ++ [p]
                prev_index_pos := some p
                prev_eraser_pos := none }
        | none =>
            { s with prev_index_pos := some p, prev_eraser_pos := none }
      else sealBranch s
  | none => sealBranch s

/-- The eraser section of the loop body (app.py lines 90-110): with the
mouth open and a position present, a background-color line of thickness 50
is painted from the previous eraser anchor, the eraser anchor is moved and
the brush anchor dropped; with the mouth closed the eraser anchor is
dropped. -/
def eraseStep (i : FrameInput) (s : LoopState) : LoopState :=
  if i.mouth then
    match i.index_pos with
    | some p =>
        let s1 :=
          match s.prev_eraser_pos with
          | some q => { s with canvas := s.canvas.draw_line q p s.canvas.bg_color 50 }
          | none => s
        { s1 with prev_eraser_pos := some p, prev_index_pos := none }
    | none => s
  else { s with prev_eraser_pos := none }

/-- The color-change section of the loop body (app.py lines 114-121):
eyebrow raised without a double blink advances the color cyclically, under
a one-second debounce on the wall clock. -/
def colorStep (i : FrameInput) (s : LoopState) : LoopState :=
  if i.eyebrow && !i.dblink then
    if i.t - s.last_color_change_time > 1 then
      let idx := (s.color_index + 1) % color_list.length
      { s with
          color_index := idx
          current_color := color_list.getD idx (0, 0, 0)
          last_color_change_time := i.t }
    else s
  else s

/-- The save-and-clear section of the loop body (app.py lines 126-140): a
double blink writes the bitmap out (a side effect outside this state),
resets the canvas and empties both stacks. -/
def saveStep (i : FrameInput) (s : LoopState) : LoopState :=
  if i.dblink then
    { s with canvas := s.canvas.reset, stroke_history := [], redo_stack := [] }
  else s

/-- The inner loop of the history replay (app.py lines 150-151 and
163-164): for i in range(1, len(pts)) draw a segment from pts[i-1] to
pts[i]. -/
def drawSegs (cv : Canvas) (pts : List Point) (col : Color) (t : Nat) : Canvas :=
  match pts with
  | a :: b :: rest => drawSegs (cv.draw_line a b col t) (b :: rest) col t
  | _ => cv

/-- Replay of a stroke list onto a canvas (app.py lines 148-151): each
stroke's consecutive-point segments are drawn in history order with the
fixed brush size. -/
def replayOnto (cv : Canvas) (hist : List Stroke) : Canvas :=
  hist.foldl (fun c st => drawSegs c st.points st.color brush_size) cv

/-- The body of the undo branch (app.py lines 145-154): with a non-empty
history, pop the newest stroke onto the redo stack, reset the canvas and
replay every remaining stroke; with an empty history, do nothing. -/
def undoOp (s : LoopState) : LoopState :=
  match s.stroke_history.getLast? with
  | some st =>
      { s with
          stroke_history := s.stroke_history.dropLast
          redo_stack := s.redo_stack ++ [st]
          canvas := replayOnto s.canvas.reset s.stroke_history.dropLast }
  | none => s

/-- The body of the redo branch (app.py lines 159-167): with a non-empty
redo stack, pop its newest stroke back onto the history and draw its
segments incrementally onto the current canvas; with an empty redo stack,
do nothing. -/
def redoOp (s : LoopState) : LoopState :=
  match s.redo_stack.getLast? with
  | some st =>
      { s with
          redo_stack := s.redo_stack.dropLast
          stroke_history := s.stroke_history ++ [st]
          canvas := drawSegs s.canvas st.points st.color brush_size }
  | none => s

/-- The wink section of the loop body (app.py lines 143-167), with the
source's nesting kept: the redo check sits inside the left-wink branch, so
it runs only on frames whose left wink also fired. -/
def winkStep (i : FrameInput) (s : LoopState) : LoopState :=
  if i.lwink then
    let s1 := undoOp s
    if i.rwink then redoOp s1 else s1
  else s

/-- One iteration of the gesture-to-canvas translation of app.py's main
loop (lines 66-167), in the source's order: draw-or-seal, then eraser,
then color change, then save-and-clear, then the wink section. -/
def mainStep (i : FrameInput) (s : LoopState) : LoopState :=
  winkStep i (saveStep i (colorStep i (eraseStep i (drawSealStep i s))))

/-- Iterated main-loop steps over a frame-input sequence. -/
def runMain (l : List FrameInput) (s : LoopState) : LoopState :=
  l.foldl (fun st i => mainStep i st) s

/-- Per-frame eye measurements once a face is found
(src/controllers/eye_controller.py lines 57-68): the two eyelid gap
distances and the forehead-to-chin face height, carried as the exact
values of the source's math.hypot computations. -/
structure EyeMeasure where
  left_eye_ratio : ℚ
  right_eye_ratio : ℚ
  face_height : ℚ
deriving DecidableEq, Repr

/-- One frame as EyeController.process sees it: the frame's wall-clock
time and either the eye measurements or none (no face found by the mesh,
or a landmark-geometry fault — both leave the reset gesture flags). -/
structure EyeObs where
  time : ℚ
  face : Option EyeMeasure
deriving DecidableEq, Repr

/-- The instance fields of EyeController: the three per-frame gesture
flags and the both-eyes-closed timer (blink_interval is the fixed 0.5). -/
structure EyeState where
  double_blink_detected : Bool
  left_wink_detected : Bool
  right_wink_detected : Bool
  last_blink_time : ℚ
deriving DecidableEq, Repr

/-- EyeController.__init__: flags down, last blink time 0. -/
def initEyeState : EyeState :=
  { double_blink_detected := false
    left_wink_detected := false
    right_wink_detected := false
    last_blink_time := 0 }

/-- EyeController._reset_gestures. -/
def resetGestures (st : EyeState) : EyeState :=
  { st with
      double_blink_detected := false
      left_wink_detected := false
      right_wink_detected := false }

/-- EyeController.process (src/controllers/eye_controller.py lines
33-103): flags are reset every frame; with measurements present, each eye
is closed when its eyelid gap is below 1.8 percent of the face height;
both eyes closed fires a double blink when it comes within blink_interval
(0.5 s) of the previous both-closed event and always restarts the timer;
exactly one closed eye fires the wink on that side (elif arms, so at most
one branch runs). -/
def eyeProcess (st : EyeState) (o : EyeObs) : EyeState :=
  let st := resetGestures st
  match o.face with
  | none => st
  | some f =>
      let eye_threshold : ℚ := f.face_height * (18 / 1000)
      let left_eye_closed : Bool := decide (f.left_eye_ratio < eye_threshold)
      let right_eye_closed : Bool := decide (f.right_eye_ratio < eye_threshold)
      if left_eye_closed && right_eye_closed then
        let st :=
          if o.time - st.last_blink_time < 1 / 2 then
            { st with double_blink_detected := true }
          else st
        { st with last_blink_time := o.time }
      else if left_eye_closed && !right_eye_closed then
        { st with left_wink_detected := true }
      else if right_eye_closed && !left_eye_closed then
        { st with right_wink_detected := true }
      else st

/-- Whether a frame observation is a both-eyes-closed event under the
source's per-eye threshold (the guard of eye_controller.py line 77). -/
def bothClosed (o : EyeObs) : Bool :=
  match o.face with
  | none => false
  | some f =>
      decide (f.left_eye_ratio < f.face_height * (18 / 1000)) &&
      decide (f.right_eye_ratio < f.face_height * (18 / 1000))

/-- The double-blink output of each frame of a run of
EyeController.process over an observation sequence. -/
def eyeOutputs (st : EyeState) : List EyeObs → List Bool
  | [] => []
  | o :: rest =>
      let st1 := eyeProcess st o
      st1.double_blink_detected :: eyeOutputs st1 rest

/-- Iterated EyeController.process. -/
def eyeRun (st : EyeState) (l : List EyeObs) : EyeState :=
  l.foldl eyeProcess st

/-- Per-frame face measurements once a face is found
(src/controllers/face_controller.py lines 59-77): lip separation, the two
eyebrow-to-eye distances and the face height, as exact values of the
source's math.hypot computations. -/
structure FaceMeasure where
  mouth_distance : ℚ
  left_eyebrow_dist : ℚ
  right_eyebrow_dist : ℚ
  face_height : ℚ
deriving DecidableEq, Repr

/-- One frame as FaceController.process sees it: measurements, or none
when no face is found or a landmark-geometry fault is caught (both leave
the flags reset and do not advance calibration). -/
abbrev FaceObs := Option FaceMeasure

/-- The instance fields of FaceController: the two per-frame gesture
flags and the calibration bookkeeping (calibration_frames is the fixed
60). -/
structure FaceState where
  mouth_open : Bool
  eyebrow_raised : Bool
  calibrated : Bool
  neutral_eyebrow_distances : List ℚ
  neutral_eyebrow_distance : Option ℚ
  current_frame : Nat
deriving DecidableEq, Repr

/-- FaceController.__init__. -/
def initFaceState : FaceState :=
  { mouth_open := false
    eyebrow_raised := false
    calibrated := false
    neutral_eyebrow_distances := []
    neutral_eyebrow_distance := none
    current_frame := 0 }

/-- FaceController.process (src/controllers/face_controller.py lines
34-117): flags are reset every frame; while uncalibrated each
face-containing frame appends the averaged eyebrow distance and advances
the frame counter, completing calibration with the list mean once 60
face frames are in; once calibrated, the eyebrow flag fires above
baseline + 2 percent of face height and the mouth flag above 3.5 percent
of face height. -/
def faceProcess (st : FaceState) (o : FaceObs) : FaceState :=
  let st := { st with mouth_open := false, eyebrow_raised := false }
  match o with
  | none => st
  | some f =>
      let avg_eyebrow_dist : ℚ := (f.left_eyebrow_dist + f.right_eyebrow_dist) / 2
      if st.calibrated then
        let raise_threshold : ℚ :=
          st.neutral_eyebrow_distance.getD 0 + f.face_height * (2 / 100)
        let st :=
          if avg_eyebrow_dist > raise_threshold then
            { st with eyebrow_raised := true }
          else st
        if f.mouth_distance > f.face_height * (35 / 1000) then
          { st with mouth_open := true }
        else st
      else
        let ds := st.neutral_eyebrow_distances ++ [avg_eyebrow_dist]
        let st := { st with neutral_eyebrow_distances := ds, current_frame := st.current_frame + 1 }
        if st.current_frame ≥ 60 then
          { st with
              neutral_eyebrow_distance := some (ds.sum / (ds.length : ℚ))
              calibrated := true }
        else st

/-- The (mouth_open, eyebrow_raised) outputs of each frame of a run of
FaceController.process over an observation sequence. -/
def faceOutputs (st : FaceState) : List FaceObs → List (Bool × Bool)
  | [] => []
  | o :: rest =>
      let st1 := faceProcess st o
      (st1.mouth_open, st1.eyebrow_raised) :: faceOutputs st1 rest

/-- Per-frame hand landmarks once a hand is found
(src/controllers/hand_controller.py lines 44-61): the index fingertip and
thumb tip pixel positions. -/
structure HandMeasure where
  index_tip : Point
  thumb_tip : Point
deriving DecidableEq, Repr

/-- One frame as HandController.process sees it: landmarks or none. -/
abbrev HandObs := Option HandMeasure

/-- The instance fields of HandController (smoothing_factor is the fixed
0.2 = 1/5). -/
structure HandState where
  index_finger_pos : Option Point
  is_pinch : Bool
  prev_index_finger_pos : Option Point
deriving DecidableEq, Repr

/-- HandController.__init__. -/
def initHandState : HandState :=
  { index_finger_pos := none, is_pinch := false, prev_index_finger_pos := none }

/-- HandController.process (src/controllers/hand_controller.py lines
29-76): with a hand present, the reported position blends the previous
position with the raw one (factor 1/5) only when not pinching and a
previous position exists, and otherwise is the raw position; the floor
models Python's int() on these non-negative pixel coordinates; the pinch
flag compares the (squared) index-to-thumb distance against the 55-pixel
threshold.  With no hand, position and pinch reset and the smoothing
state is cleared. -/
def handProcess (st : HandState) (o : HandObs) : HandState :=
  match o with
  | some hm =>
      let new_pos := hm.index_tip
      let pos : Point :=
        match st.is_pinch, st.prev_index_finger_pos with
        | false, some pv =>
            (⌊(pv.1 : ℚ) * (4 / 5) + (new_pos.1 : ℚ) * (1 / 5)⌋,
             ⌊(pv.2 : ℚ) * (4 / 5) + (new_pos.2 : ℚ) * (1 / 5)⌋)
        | _, _ => new_pos
      let st := { st with index_finger_pos := some pos, prev_index_finger_pos := some pos }
      let d2 : Int := sqNorm (pos.1 - hm.thumb_tip.1, pos.2 - hm.thumb_tip.2)
      { st with is_pinch := decide (d2 < 55 * 55) }
  | none =>
      { index_finger_pos := none, is_pinch := false, prev_index_finger_pos := none }

/-! ## Canvas replay lemmas -/

theorem reset_draw_line (cv : Canvas) (p1 p2 : Point) (col : Color) (t : Nat) :
    (cv.draw_line p1 p2 col t).reset = cv.reset := rfl

theorem reset_reset (cv : Canvas) : cv.reset.reset = cv.reset := rfl

theorem reset_drawSegs (cv : Canvas) (pts : List Point) (col : Color) (t : Nat) :
    (drawSegs cv pts col t).reset = cv.reset := by
  induction pts generalizing cv with
  | nil => rfl
  | cons a rest ih =>
      cases rest with
      | nil => rfl
      | cons b rest2 =>
          show (drawSegs (cv.draw_line a b col t) (b :: rest2) col t).reset = cv.reset
          rw [ih]
          exact reset_draw_line cv a b col t

theorem reset_replayOnto (cv : Canvas) (hist : List Stroke) :
    (replayOnto cv hist).reset = cv.reset := by
  induction hist generalizing cv with
  | nil => rfl
  | cons st rest ih =>
      show (replayOnto (drawSegs cv st.points st.color brush_size) rest).reset = cv.reset
      rw [ih, reset_drawSegs]

theorem replayOnto_concat (cv : Canvas) (hist : List Stroke) (st : Stroke) :
    replayOnto cv (hist ++ [st]) = drawSegs (replayOnto cv hist) st.points st.color brush_size := by
  simp [replayOnto, List.foldl_append]

/-- The replay invariant of the spec's data model (§3): replaying every
stroke of stroke_history, in order, onto a freshly reset canvas of the
same dimensions and background reproduces the live canvas bit-for-bit. -/
def replayInv (s : LoopState) : Prop :=
  replayOnto s.canvas.reset s.stroke_history = s.canvas

instance (s : LoopState) : Decidable (replayInv s) := by
  unfold replayInv; infer_instance

theorem replayInv_undoOp_of_ne (s : LoopState) (h : s.stroke_history ≠ []) :
    replayInv (undoOp s) := by
  unfold undoOp
  cases hl : s.stroke_history.getLast? with
  | none => exact absurd (List.getLast?_eq_none_iff.mp hl) h
  | some st =>
      show replayOnto (replayOnto s.canvas.reset s.stroke_history.dropLast).reset
          s.stroke_history.dropLast = _
      rw [reset_replayOnto, reset_reset]

theorem replayInv_undoOp (s : LoopState) (h : replayInv s) : replayInv (undoOp s) := by
  cases hl : s.stroke_history.getLast? with
  | none => simpa [undoOp, hl] using h
  | some st =>
      have : s.stroke_history ≠ [] := by
        intro he
        rw [he] at hl
        exact Option.noConfusion hl
      exact replayInv_undoOp_of_ne s this

theorem replayInv_redoOp (s : LoopState) (h : replayInv s) : replayInv (redoOp s) := by
  unfold redoOp
  cases hl : s.redo_stack.getLast? with
  | none => exact h
  | some st =>
      show replayOnto (drawSegs s.canvas st.points st.color brush_size).reset
          (s.stroke_history ++ [st]) = _
      rw [reset_drawSegs, replayOnto_concat, h]

/-- An Undo or Redo operation of the wink section, for stating invariant
preservation along operation sequences. -/
inductive UROp where
  | undo : UROp
  | redo : UROp
deriving DecidableEq, Repr

/-- Iterated application of Undo / Redo operations. -/
def applyUR (s : LoopState) : List UROp → LoopState
  | [] => s
  | UROp.undo :: rest => applyUR (undoOp s) rest
  | UROp.redo :: rest => applyUR (redoOp s) rest

theorem replayInv_applyUR (s : LoopState) (h : replayInv s) (ops : List UROp) :
    replayInv (applyUR s ops) := by
  induction ops generalizing s with
  | nil => exact h
  | cons op rest ih =>
      cases op with
      | undo => exact ih (undoOp s) (replayInv_undoOp s h)
      | redo => exact ih (redoOp s) (replayInv_redoOp s h)

/-! ## Concrete demonstration states for witnesses and counterexamples -/

/-- Frame input with the brush pinched at p, mouth closed and every other
gesture idle. -/
def drawFrame (p : Point) : FrameInput :=
  { index_pos := some p, pinch := true, mouth := false, eyebrow := false,
    dblink := false, lwink := false, rwink := false, t := 0 }

/-- Frame input with no hand and every gesture idle. -/
def idleFrame : FrameInput :=
  { index_pos := none, pinch := false, mouth := false, eyebrow := false,
    dblink := false, lwink := false, rwink := false, t := 0 }

/-- Idle frame whose left wink fired. -/
def undoFrame : FrameInput := { idleFrame with lwink := true }

/-- A 1-by-20 white canvas loop state reached by pinch-dragging the brush
from (0,0) through (18,0) to (19,0) and releasing: the sealed stroke
records only [(18,0), (19,0)], while the live canvas also carries the
first drawn segment from (0,0) to (18,0). -/
def demoState : LoopState :=
  runMain [drawFrame (0, 0), drawFrame (18, 0), drawFrame (19, 0), idleFrame]
    (initState 1 20 (255, 255, 255))

example : demoState.stroke_history = [⟨[(18, 0), (19, 0)], (255, 0, 0)⟩] := by decide

/-! ## C1: replay invariant -/

/-- C1, counterexample. In the reachable state demoState the strokes in
stroke_history replayed onto a fresh background canvas do not reproduce
the live canvas: the stroke's first live-drawn segment, from the anchor
position (0,0) to the first recorded point (18,0), is on the canvas but
absent from the recorded points, so the replay leaves its pixels at the
background color. -/
theorem C1_counterexample : ¬ replayInv demoState := by decide

/-- C1, amended. The replay invariant does hold for every state produced
by an Undo on a non-empty stroke_history followed by any further sequence
of Undo / Redo operations: there, replaying the strokes currently in
stroke_history in order onto a fresh background-color canvas yields a
raster identical bit-for-bit to the live canvas.  It fails on states
whose canvas carries a live-drawn stroke (the first segment of each
pinch-drag is painted before its start point is recorded, see
C1_counterexample) or an erasure (never recorded, see C10). -/
theorem C1_replay_reproduces_canvas_after_undo (s : LoopState) (ops : List UROp)
    (h : s.stroke_history ≠ []) : replayInv (applyUR (undoOp s) ops) :=
  replayInv_applyUR (undoOp s) (replayInv_undoOp_of_ne s h) ops

/-- C1, witness: the amended invariant evaluated on demoState (non-empty
history) through an Undo followed by a Redo and another Undo. -/
theorem C1_replay_witness :
    replayInv (applyUR (undoOp demoState) [UROp.redo, UROp.undo]) :=
  C1_replay_reproduces_canvas_after_undo demoState [UROp.redo, UROp.undo] (by decide)

/-! ## C2: redo stack on sealing a new stroke after an undo -/

/-- A 1-by-4 white canvas loop state reached by drawing and sealing a
stroke, undoing it with a left wink (the stroke moves to redo_stack), and
then drawing and sealing a second stroke. -/
def sealAfterUndoState : LoopState :=
  runMain
    [drawFrame (0, 0), drawFrame (2, 0), idleFrame, undoFrame,
     drawFrame (0, 0), drawFrame (3, 0), idleFrame]
    (initState 1 4 (255, 255, 255))

/-- C2, evaluation at the failing input. Sealing the second stroke while
redo_stack holds the undone first stroke leaves redo_stack untouched: the
loop body has no clearing of redo_stack outside the save branch, so after
the run the new stroke sits in stroke_history while the undone stroke is
still in redo_stack, against the claimed clear-on-seal. -/
theorem C2_redo_stack_not_cleared_on_seal :
    sealAfterUndoState.redo_stack = [⟨[(2, 0)], (255, 0, 0)⟩] ∧
    sealAfterUndoState.stroke_history = [⟨[(3, 0)], (255, 0, 0)⟩] := by
  constructor
  · decide
  · decide

/-! ## C3: undo then redo -/

/-- C3, counterexample. On the reachable single-stroke state demoState,
Undo followed by Redo does not restore the canvas: the rebuilt canvas is
the replay of the stroke's recorded points, which misses the live-drawn
first segment from (0,0) to (18,0). -/
theorem C3_counterexample : ¬ ((redoOp (undoOp demoState)).canvas = demoState.canvas) := by
  decide

/-- C3, amended. For a state whose stroke_history holds exactly one
stroke and whose live canvas equals the replay of that history (the
canvas discipline Undo's rebuild establishes), performing the Undo
operation followed by the Redo operation restores the entire loop state,
in particular the canvas bit-for-bit.  Without the replay hypothesis the
claim fails on live-drawn strokes, see C3_counterexample. -/
theorem C3_undo_then_redo_restores (s : LoopState) (st : Stroke)
    (hh : s.stroke_history = [st]) (hc : replayInv s) :
    redoOp (undoOp s) = s := by
  obtain ⟨ci, cc, sh, rs, pip, pep, cs, lt, cv⟩ := s
  dsimp only at hh
  subst hh
  have hcv : drawSegs cv.reset st.points st.color brush_size = cv := by
    simpa [replayInv, replayOnto] using hc
  simp [undoOp, redoOp, List.getLast?_concat, List.dropLast_concat, replayOnto, hcv]

/-- Single-stroke state whose canvas is the replay of its history, as
Undo's rebuild would leave it. -/
def replayedState : LoopState :=
  { initState 1 4 (255, 255, 255) with
      stroke_history := [⟨[(0, 0), (2, 0)], (255, 0, 0)⟩]
      canvas :=
        replayOnto (Canvas.init 1 4 (255, 255, 255)).reset
          [⟨[(0, 0), (2, 0)], (255, 0, 0)⟩] }

/-- C3, witness: the amended round trip evaluated on the concrete
single-stroke state replayedState. -/
theorem C3_witness : redoOp (undoOp replayedState) = replayedState :=
  C3_undo_then_redo_restores replayedState ⟨[(0, 0), (2, 0)], (255, 0, 0)⟩
    (by decide) (by decide)

/-! ## C4: wink exclusivity and unreachability of redo -/

/-- Wink section as the claim reads it with the redo branch removed: only
the undo operation can run.  This is the claim-side reference step the
faithful winkStep is compared against. -/
def winkStepUndoOnly (i : FrameInput) (s : LoopState) : LoopState :=
  if i.lwink then undoOp s else s

/-- Main-loop step with the redo branch removed, the claim-side reference
for the statement that the Redo operation is never executed. -/
def mainStepUndoOnly (i : FrameInput) (s : LoopState) : LoopState :=
  winkStepUndoOnly i (saveStep i (colorStep i (eraseStep i (drawSealStep i s))))

theorem winkStep_eq_undoOnly (i : FrameInput) (s : LoopState)
    (h : (i.lwink && i.rwink) = false) : winkStep i s = winkStepUndoOnly i s := by
  unfold winkStep winkStepUndoOnly
  cases hl : i.lwink with
  | false => rfl
  | true =>
      cases hr : i.rwink with
      | false => rfl
      | true => rw [hl, hr] at h; exact absurd h (by decide)

theorem eyeProcess_winks_exclusive (es : EyeState) (o : EyeObs) :
    ((eyeProcess es o).left_wink_detected && (eyeProcess es o).right_wink_detected) = false := by
  unfold eyeProcess
  cases o.face with
  | none => rfl
  | some f =>
      dsimp only
      split_ifs <;> simp_all [resetGestures]

/-- C4. In every frame EyeController.process classifies, the left-wink
and right-wink flags are never both set (the wink branches are mutually
exclusive elif arms of one classification); consequently, with the wink
inputs of the main-loop step taken from EyeController.process's outputs,
the step coincides with the redo-free step: the Redo operation is never
executed in any composed execution of the main loop. -/
theorem C4_redo_never_executed :
    (∀ (es : EyeState) (o : EyeObs),
        ((eyeProcess es o).left_wink_detected &&
          (eyeProcess es o).right_wink_detected) = false) ∧
    ∀ (s : LoopState) (pos : Option Point) (pinch mouth eyebrow : Bool) (tq : ℚ)
      (es : EyeState) (o : EyeObs),
      mainStep
          { index_pos := pos, pinch := pinch, mouth := mouth, eyebrow := eyebrow,
            dblink := (eyeProcess es o).double_blink_detected,
            lwink := (eyeProcess es o).left_wink_detected,
            rwink := (eyeProcess es o).right_wink_detected, t := tq } s =
        mainStepUndoOnly
          { index_pos := pos, pinch := pinch, mouth := mouth, eyebrow := eyebrow,
            dblink := (eyeProcess es o).double_blink_detected,
            lwink := (eyeProcess es o).left_wink_detected,
            rwink := (eyeProcess es o).right_wink_detected, t := tq } s := by
  constructor
  · exact eyeProcess_winks_exclusive
  · intro s pos pinch mouth eyebrow tq es o
    unfold mainStep mainStepUndoOnly
    exact winkStep_eq_undoOnly _ _ (eyeProcess_winks_exclusive es o)

/-! ## C5: save clears everything; undo on empty history is a no-op -/

theorem drawSealStep_canvas_reset (i : FrameInput) (s : LoopState) :
    (drawSealStep i s).canvas.reset = s.canvas.reset := by
  unfold drawSealStep sealBranch
  cases i.index_pos with
  | none => split_ifs <;> rfl
  | some p =>
      cases hb : (i.pinch && !i.mouth) with
      | false => simp only [Bool.false_eq_true, if_false]; split_ifs <;> rfl
      | true =>
          simp only [if_true]
          cases s.prev_index_pos with
          | none => rfl
          | some q => exact reset_draw_line s.canvas q p s.current_color brush_size

theorem eraseStep_canvas_reset (i : FrameInput) (s : LoopState) :
    (eraseStep i s).canvas.reset = s.canvas.reset := by
  unfold eraseStep
  split_ifs
  · cases i.index_pos with
    | none => rfl
    | some p =>
        cases s.prev_eraser_pos with
        | none => rfl
        | some q => exact reset_draw_line s.canvas q p s.canvas.bg_color 50
  · rfl

theorem colorStep_canvas (i : FrameInput) (s : LoopState) :
    (colorStep i s).canvas = s.canvas := by
  unfold colorStep
  split_ifs <;> rfl

theorem undoOp_of_empty (s : LoopState) (h : s.stroke_history = []) : undoOp s = s := by
  simp [undoOp, h]

theorem redoOp_of_empty (s : LoopState) (h : s.redo_stack = []) : redoOp s = s := by
  simp [redoOp, h]

theorem winkStep_of_empty (i : FrameInput) (s : LoopState)
    (h1 : s.stroke_history = []) (h2 : s.redo_stack = []) : winkStep i s = s := by
  unfold winkStep
  split_ifs
  · rw [undoOp_of_empty s h1, redoOp_of_empty s h2]
  · exact undoOp_of_empty s h1
  · rfl

/-- C5. On any frame whose double-blink gesture fired, the main-loop step
leaves stroke_history and redo_stack empty and the canvas reset to the
background color: the save branch clears all three together, and the only
later mutations of the frame (the wink section) are no-ops on the emptied
stacks.  And the Undo operation performed with an empty stroke_history
returns the state unchanged — a no-op on canvas, stroke_history and
redo_stack, with no fault (the embedding is a total function). -/
theorem C5_save_clears_and_empty_undo_noop :
    (∀ (s : LoopState) (i : FrameInput), i.dblink = true →
        (mainStep i s).stroke_history = [] ∧ (mainStep i s).redo_stack = [] ∧
        (mainStep i s).canvas = s.canvas.reset) ∧
    ∀ s : LoopState, s.stroke_history = [] → undoOp s = s := by
  constructor
  · intro s i hdb
    unfold mainStep
    set s3 := colorStep i (eraseStep i (drawSealStep i s)) with hs3
    have hsave : saveStep i s3 =
        { s3 with canvas := s3.canvas.reset, stroke_history := [], redo_stack := [] } := by
      simp [saveStep, hdb]
    rw [hsave, winkStep_of_empty _ _ rfl rfl]
    refine ⟨rfl, rfl, ?_⟩
    show s3.canvas.reset = s.canvas.reset
    rw [hs3, colorStep_canvas, eraseStep_canvas_reset, drawSealStep_canvas_reset]
  · exact undoOp_of_empty

/-- C5, witness: the save-and-clear conclusion evaluated on demoState
under a double-blink frame, and the empty-history Undo no-op evaluated on
the initial state. -/
theorem C5_witness :
    ((mainStep { idleFrame with dblink := true } demoState).stroke_history = [] ∧
     (mainStep { idleFrame with dblink := true } demoState).redo_stack = [] ∧
     (mainStep { idleFrame with dblink := true } demoState).canvas = demoState.canvas.reset) ∧
    undoOp (initState 1 4 (255, 255, 255)) = initState 1 4 (255, 255, 255) :=
  ⟨C5_save_clears_and_empty_undo_noop.1 demoState { idleFrame with dblink := true } rfl,
   C5_save_clears_and_empty_undo_noop.2 (initState 1 4 (255, 255, 255)) rfl⟩

/-! ## C6: double-blink timing -/

theorem eyeProcess_of_not_closed (st : EyeState) (o : EyeObs) (h : bothClosed o = false) :
    (eyeProcess st o).double_blink_detected = false ∧
    (eyeProcess st o).last_blink_time = st.last_blink_time := by
  unfold eyeProcess bothClosed at *
  cases ho : o.face with
  | none => exact ⟨rfl, rfl⟩
  | some f =>
      rw [ho] at h
      by_cases hl : f.left_eye_ratio < f.face_height * (18 / 1000) <;>
        by_cases hr : f.right_eye_ratio < f.face_height * (18 / 1000) <;>
          simp [hl, hr, resetGestures] at h ⊢

theorem eyeProcess_of_closed (st : EyeState) (o : EyeObs) (h : bothClosed o = true) :
    (eyeProcess st o).last_blink_time = o.time ∧
    (eyeProcess st o).double_blink_detected =
      decide (o.time - st.last_blink_time < 1 / 2) := by
  unfold eyeProcess bothClosed at *
  cases ho : o.face with
  | none => rw [ho] at h; exact Bool.noConfusion h
  | some f =>
      rw [ho] at h
      simp only [Bool.and_eq_true, decide_eq_true_eq] at h
      obtain ⟨hl, hr⟩ := h
      constructor
      · simp [hl, hr, resetGestures]
      · simp only [hl, hr, resetGestures, decide_True, Bool.and_self, if_true]
        split_ifs with h2
        · simp
          linarith
        · simp
          rw [not_lt] at h2
          linarith

theorem eyeOutputs_all_false_of_no_events (l : List EyeObs) :
    ∀ st : EyeState, (∀ o ∈ l, bothClosed o = false) →
      ∀ b ∈ eyeOutputs st l, b = false := by
  induction l with
  | nil => intro st _ b hb; simp [eyeOutputs] at hb
  | cons o rest ih =>
      intro st hall b hb
      simp only [eyeOutputs, List.mem_cons] at hb
      rcases hb with hb | hb
      · subst hb
        exact (eyeProcess_of_not_closed st o (hall o (List.mem_cons_self o rest))).1
      · exact ih (eyeProcess st o) (fun o2 h2 => hall o2 (List.mem_cons_of_mem _ h2)) b hb

theorem eyeRun_time_of_no_events (l : List EyeObs) :
    ∀ st : EyeState, (∀ o ∈ l, bothClosed o = false) →
      (eyeRun st l).last_blink_time = st.last_blink_time := by
  induction l with
  | nil => intro st _; rfl
  | cons o rest ih =>
      intro st hall
      show (eyeRun (eyeProcess st o) rest).last_blink_time = _
      rw [ih (eyeProcess st o) (fun o2 h2 => hall o2 (List.mem_cons_of_mem _ h2)),
        (eyeProcess_of_not_closed st o (hall o (List.mem_cons_self o rest))).2]

theorem eyeRun_append (l1 l2 : List EyeObs) :
    ∀ st : EyeState, eyeRun st (l1 ++ l2) = eyeRun (eyeRun st l1) l2 := by
  intro st
  unfold eyeRun
  exact List.foldl_append _ _ _ _

theorem eyeOutputs_append (l1 l2 : List EyeObs) :
    ∀ st : EyeState,
      eyeOutputs st (l1 ++ l2) = eyeOutputs st l1 ++ eyeOutputs (eyeRun st l1) l2 := by
  induction l1 with
  | nil => intro st; rfl
  | cons o rest ih =>
      intro st
      show (eyeProcess st o).double_blink_detected :: eyeOutputs (eyeProcess st o) (rest ++ l2) = _
      rw [ih (eyeProcess st o)]
      rfl

theorem single_blink_never_fires_aux (l : List EyeObs) :
    ∀ st : EyeState, st.last_blink_time = 0 →
      (∀ o ∈ l, bothClosed o = true → (1 : ℚ) / 2 ≤ o.time) →
      l.countP bothClosed ≤ 1 → ∀ b ∈ eyeOutputs st l, b = false := by
  induction l with
  | nil => intro st _ _ _ b hb; simp [eyeOutputs] at hb
  | cons o rest ih =>
      intro st h0 htime hcount b hb
      simp only [eyeOutputs, List.mem_cons] at hb
      cases hc : bothClosed o with
      | false =>
          rcases hb with hb | hb
          · subst hb
            exact (eyeProcess_of_not_closed st o hc).1
          · refine ih (eyeProcess st o) ?_ ?_ ?_ b hb
            · rw [(eyeProcess_of_not_closed st o hc).2, h0]
            · exact fun o2 m h2 => htime o2 (List.mem_cons_of_mem _ m) h2
            · rwa [List.countP_cons_of_neg _ _ (by simp [hc])] at hcount
      | true =>
          have hge : (1 : ℚ) / 2 ≤ o.time := htime o (List.mem_cons_self o rest) hc
          rcases hb with hb | hb
          · subst hb
            rw [(eyeProcess_of_closed st o hc).2, h0]
            simp only [decide_eq_false_iff_not, not_lt]
            linarith
          · have hz : rest.countP bothClosed = 0 := by
              rw [List.countP_cons_of_pos _ _ hc] at hcount
              omega
            exact eyeOutputs_all_false_of_no_events rest (eyeProcess st o)
              (fun o2 m => by
                have := List.countP_eq_zero.mp hz o2 m
                simpa using this) b hb

theorem paired_blinks_apart_never_fire_aux (l1 l2 l3 : List EyeObs) (o1 o2 : EyeObs)
    (h1 : ∀ o ∈ l1, bothClosed o = false) (h2 : ∀ o ∈ l2, bothClosed o = false)
    (h3 : ∀ o ∈ l3, bothClosed o = false)
    (hc1 : bothClosed o1 = true) (hc2 : bothClosed o2 = true)
    (ht1 : (1 : ℚ) / 2 ≤ o1.time) (ht2 : o2.time = o1.time + 3 / 5) :
    ∀ b ∈ eyeOutputs initEyeState (l1 ++ [o1] ++ l2 ++ [o2] ++ l3), b = false := by
  intro b hb
  simp only [eyeOutputs_append, eyeRun_append, List.mem_append] at hb
  have hst1 : (eyeRun initEyeState l1).last_blink_time = 0 :=
    eyeRun_time_of_no_events l1 initEyeState h1
  have hrun1 : eyeRun (eyeRun initEyeState l1) [o1] = eyeProcess (eyeRun initEyeState l1) o1 := rfl
  have hst2 : (eyeRun (eyeRun initEyeState l1) [o1]).last_blink_time = o1.time := by
    rw [hrun1]
    exact (eyeProcess_of_closed _ o1 hc1).1
  have hst3 :
      (eyeRun (eyeRun (eyeRun initEyeState l1) [o1]) l2).last_blink_time = o1.time := by
    rw [eyeRun_time_of_no_events l2 _ h2, hst2]
  rcases hb with (((hb | hb) | hb) | hb) | hb
  · exact eyeOutputs_all_false_of_no_events l1 initEyeState h1 b hb
  · have : b = (eyeProcess (eyeRun initEyeState l1) o1).double_blink_detected := by
      simpa [eyeOutputs] using hb
    rw [this, (eyeProcess_of_closed _ o1 hc1).2, hst1]
    simp only [decide_eq_false_iff_not, not_lt]
    linarith
  · exact eyeOutputs_all_false_of_no_events l2 _ h2 b hb
  · have : b = (eyeProcess (eyeRun (eyeRun (eyeRun initEyeState l1) [o1]) l2)
        o2).double_blink_detected := by
      simpa [eyeOutputs] using hb
    rw [this, (eyeProcess_of_closed _ o2 hc2).2, hst3, ht2]
    simp only [decide_eq_false_iff_not, not_lt]
    linarith
  · exact eyeOutputs_all_false_of_no_events l3 _ h3 b hb

/-- C6. The double-blink classification of EyeController.process: a frame
sets the double-blink flag only if it is a both-eyes-closed event coming
strictly within 0.5 s of the stored previous both-closed time; over any
run from the initial controller state whose both-closed events carry
wall-clock times of at least 0.5 s (time.time() is seconds since the
epoch, so every real frame time clears the initial last_blink_time of 0
by far more than the interval), a sequence with at most one both-closed
event never fires, and a sequence whose only two both-closed events lie
0.6 s apart never fires; and every both-closed event resets the timer to
the frame's time whether or not the double blink fired. -/
theorem C6_double_blink_requires_paired_events :
    (∀ (st : EyeState) (o : EyeObs),
        (eyeProcess st o).double_blink_detected = true →
        bothClosed o = true ∧ o.time - st.last_blink_time < 1 / 2) ∧
    (∀ l : List EyeObs,
        (∀ o ∈ l, bothClosed o = true → (1 : ℚ) / 2 ≤ o.time) →
        l.countP bothClosed ≤ 1 → ∀ b ∈ eyeOutputs initEyeState l, b = false) ∧
    (∀ (l1 l2 l3 : List EyeObs) (o1 o2 : EyeObs),
        (∀ o ∈ l1, bothClosed o = false) → (∀ o ∈ l2, bothClosed o = false) →
        (∀ o ∈ l3, bothClosed o = false) →
        bothClosed o1 = true → bothClosed o2 = true →
        (1 : ℚ) / 2 ≤ o1.time → o2.time = o1.time + 3 / 5 →
        ∀ b ∈ eyeOutputs initEyeState (l1 ++ [o1] ++ l2 ++ [o2] ++ l3), b = false) ∧
    ∀ (st : EyeState) (o : EyeObs), bothClosed o = true →
      (eyeProcess st o).last_blink_time = o.time := by
  refine ⟨?_, ?_, paired_blinks_apart_never_fire_aux,
    fun st o hc => (eyeProcess_of_closed st o hc).1⟩
  · intro st o hd
    cases hc : bothClosed o with
    | false =>
        rw [(eyeProcess_of_not_closed st o hc).1] at hd
        exact Bool.noConfusion hd
    | true =>
        refine ⟨rfl, ?_⟩
        have hcl := (eyeProcess_of_closed st o hc).2
        rw [hd] at hcl
        exact of_decide_eq_true hcl.symm
  · exact fun l => single_blink_never_fires_aux l initEyeState rfl

/-- Eye measurement with both eyelid gaps at 0 against a face height of
100: both eyes closed under the 1.8 percent threshold. -/
def closedEyes : EyeMeasure := { left_eye_ratio := 0, right_eye_ratio := 0, face_height := 100 }

/-- C6, witness: each conjunct evaluated at a concrete input — a fire at
time 5/4 against a stored blink time of 1 (within the window), a
single-event run at time 1, two events at times 1 and 8/5 (0.6 s apart),
and the timer reset at a concrete event. -/
theorem C6_witness :
    (bothClosed { time := 5 / 4, face := some closedEyes } = true ∧
      (5 / 4 : ℚ) - 1 < 1 / 2) ∧
    (∀ b ∈ eyeOutputs initEyeState [{ time := 1, face := some closedEyes }], b = false) ∧
    (∀ b ∈ eyeOutputs initEyeState
        ([] ++ [{ time := 1, face := some closedEyes }] ++ [] ++
          [{ time := 8 / 5, face := some closedEyes }] ++ []), b = false) ∧
    (eyeProcess initEyeState { time := 1, face := some closedEyes }).last_blink_time = 1 := by
  have hc1 : bothClosed { time := (5 / 4 : ℚ), face := some closedEyes } = true := by
    norm_num [bothClosed, closedEyes]
  have hc2 : bothClosed { time := (1 : ℚ), face := some closedEyes } = true := by
    norm_num [bothClosed, closedEyes]
  have hc3 : bothClosed { time := (8 / 5 : ℚ), face := some closedEyes } = true := by
    norm_num [bothClosed, closedEyes]
  have hfire :
      (eyeProcess
          { double_blink_detected := false, left_wink_detected := false,
            right_wink_detected := false, last_blink_time := 1 }
          { time := 5 / 4, face := some closedEyes }).double_blink_detected = true := by
    rw [(eyeProcess_of_closed _ _ hc1).2]
    norm_num
  refine ⟨C6_double_blink_requires_paired_events.1 _ _ hfire,
    C6_double_blink_requires_paired_events.2.1 _ ?_ ?_,
    C6_double_blink_requires_paired_events.2.2.1 [] [] [] _ _
      (by simp) (by simp) (by simp) hc2 hc3 (by norm_num) (by norm_num),
    C6_double_blink_requires_paired_events.2.2.2 _ _ hc2⟩
  · intro o hm _
    rw [List.mem_singleton] at hm
    subst hm
    norm_num
  · simp [List.countP_cons, List.countP_nil, hc2]

/-! ## C7: no gestures before calibration completes -/

theorem faceProcess_none (st : FaceState) :
    faceProcess st none = { st with mouth_open := false, eyebrow_raised := false } := rfl

theorem faceProcess_uncalibrated (st : FaceState) (f : FaceMeasure)
    (hcal : st.calibrated = false) (hcf : st.current_frame + 1 < 60) :
    (faceProcess st (some f)).mouth_open = false ∧
    (faceProcess st (some f)).eyebrow_raised = false ∧
    (faceProcess st (some f)).calibrated = false ∧
    (faceProcess st (some f)).current_frame = st.current_frame + 1 := by
  unfold faceProcess
  simp only [hcal, Bool.false_eq_true, if_false]
  rw [if_neg (by omega)]
  exact ⟨rfl, rfl, rfl, rfl⟩

theorem faceOutputs_uncalibrated_aux (l : List FaceObs) :
    ∀ st : FaceState, st.calibrated = false →
      st.current_frame + l.countP (fun o => o.isSome) ≤ 59 →
      ∀ p ∈ faceOutputs st l, p = (false, false) := by
  induction l with
  | nil => intro st _ _ p hp; simp [faceOutputs] at hp
  | cons o rest ih =>
      intro st hcal hcount p hp
      simp only [faceOutputs, List.mem_cons] at hp
      cases o with
      | none =>
          rcases hp with hp | hp
          · rw [hp, faceProcess_none]
          · refine ih _ ?_ ?_ p hp
            · rw [faceProcess_none]; exact hcal
            · rw [faceProcess_none]
              rwa [List.countP_cons_of_neg _ _ (by simp)] at hcount
      | some f =>
          have hcount2 : st.current_frame + (rest.countP (fun o => o.isSome) + 1) ≤ 59 := by
            rwa [List.countP_cons_of_pos _ _ (by simp)] at hcount
          have hu := faceProcess_uncalibrated st f hcal (by omega)
          rcases hp with hp | hp
          · rw [hp]
            rw [Prod.mk.injEq]
            exact ⟨hu.1, hu.2.1⟩
          · refine ih _ hu.2.2.1 ?_ p hp
            rw [hu.2.2.2]
            omega

/-- C7. Over any frame sequence containing fewer than 60 face-containing
frames, FaceController never completes calibration, and both
get_mouth_status() and get_eyebrow_status() return false on every frame
of the sequence, whatever the magnitudes of the measured distances: the
gesture thresholds are only ever evaluated in the calibrated branch. -/
theorem C7_no_gesture_before_calibration (l : List FaceObs)
    (h : l.countP (fun o => o.isSome) < 60) :
    ∀ p ∈ faceOutputs initFaceState l, p = (false, false) := by
  refine faceOutputs_uncalibrated_aux l initFaceState rfl ?_
  show 0 + l.countP (fun o => o.isSome) ≤ 59
  omega

/-- C7, witness: a single face frame with an enormous lip separation and
eyebrow distance (far beyond any threshold) still reports both gestures
false, the calibration window being incomplete. -/
theorem C7_witness :
    ((faceProcess initFaceState
        (some { mouth_distance := 1000000, left_eyebrow_dist := 1000000,
                right_eyebrow_dist := 1000000, face_height := 10 })).mouth_open,
     (faceProcess initFaceState
        (some { mouth_distance := 1000000, left_eyebrow_dist := 1000000,
                right_eyebrow_dist := 1000000, face_height := 10 })).eyebrow_raised)
      = (false, false) :=
  C7_no_gesture_before_calibration
    [some { mouth_distance := 1000000, left_eyebrow_dist := 1000000,
            right_eyebrow_dist := 1000000, face_height := 10 }] (by decide) _
    (List.mem_cons_self _ _)

/-! ## C8: stroke accumulation and sealing -/

/-- The drawing condition of app.py line 66: a brush position is present,
the pinch is held and the mouth is closed. -/
def drawCond (i : FrameInput) : Bool := i.index_pos.isSome && i.pinch && !i.mouth

theorem undoOp_current_stroke (s : LoopState) : (undoOp s).current_stroke = s.current_stroke := by
  unfold undoOp; cases s.stroke_history.getLast? <;> rfl

theorem redoOp_current_stroke (s : LoopState) : (redoOp s).current_stroke = s.current_stroke := by
  unfold redoOp; cases s.redo_stack.getLast? <;> rfl

theorem winkStep_current_stroke (i : FrameInput) (s : LoopState) :
    (winkStep i s).current_stroke = s.current_stroke := by
  unfold winkStep
  split_ifs
  · rw [redoOp_current_stroke, undoOp_current_stroke]
  · rw [undoOp_current_stroke]
  · rfl

theorem saveStep_current_stroke (i : FrameInput) (s : LoopState) :
    (saveStep i s).current_stroke = s.current_stroke := by
  unfold saveStep; split_ifs <;> rfl

theorem colorStep_current_stroke (i : FrameInput) (s : LoopState) :
    (colorStep i s).current_stroke = s.current_stroke := by
  unfold colorStep; split_ifs <;> rfl

theorem eraseStep_current_stroke (i : FrameInput) (s : LoopState) :
    (eraseStep i s).current_stroke = s.current_stroke := by
  unfold eraseStep
  split_ifs
  · cases i.index_pos with
    | none => rfl
    | some p => cases s.prev_eraser_pos <;> rfl
  · rfl

theorem eraseStep_stroke_history (i : FrameInput) (s : LoopState) :
    (eraseStep i s).stroke_history = s.stroke_history := by
  unfold eraseStep
  split_ifs
  · cases i.index_pos with
    | none => rfl
    | some p => cases s.prev_eraser_pos <;> rfl
  · rfl

theorem colorStep_stroke_history (i : FrameInput) (s : LoopState) :
    (colorStep i s).stroke_history = s.stroke_history := by
  unfold colorStep; split_ifs <;> rfl

theorem saveStep_of_not_dblink (i : FrameInput) (s : LoopState) (h : i.dblink = false) :
    saveStep i s = s := by
  simp [saveStep, h]

theorem winkStep_of_not_lwink (i : FrameInput) (s : LoopState) (h : i.lwink = false) :
    winkStep i s = s := by
  simp [winkStep, h]

theorem drawSealStep_append (i : FrameInput) (s : LoopState) (p q : Point)
    (hp : i.index_pos = some p) (hpin : i.pinch = true) (hm : i.mouth = false)
    (hq : s.prev_index_pos = some q) :
    (drawSealStep i s).current_stroke = s.current_stroke ++ [p] := by
  unfold drawSealStep
  rw [hp, hpin, hm, hq]
  rfl

theorem drawSealStep_seal (i : FrameInput) (s : LoopState)
    (hc : drawCond i = false) (hcs : s.current_stroke ≠ []) :
    (drawSealStep i s).stroke_history
      = s.stroke_history ++ [⟨s.current_stroke, s.current_color⟩] ∧
    (drawSealStep i s).current_stroke = [] := by
  have hseal : sealBranch s =
      { s with
          stroke_history := s.stroke_history ++ [⟨s.current_stroke, s.current_color⟩]
          current_stroke := []
          prev_index_pos := none } := by
    unfold sealBranch
    rw [if_neg (by simpa [List.isEmpty_iff] using hcs)]
  unfold drawSealStep
  unfold drawCond at hc
  cases hip : i.index_pos with
  | none => rw [hseal]; exact ⟨rfl, rfl⟩
  | some p =>
      rw [hip] at hc
      simp only [Option.isSome_some, Bool.true_and] at hc
      rw [hc, hseal]
      exact ⟨rfl, rfl⟩

/-- C8, counterexample. On the very first frame of a pinch-drag (drawing
condition true from the initial state, no previous anchor), nothing is
appended to the stroke accumulator: the position only becomes the anchor
for the next frame, against the claimed append-on-every-frame. -/
theorem C8_counterexample :
    ¬ ((mainStep (drawFrame (100, 100)) (initState 1 4 (255, 255, 255))).current_stroke
        = (initState 1 4 (255, 255, 255)).current_stroke ++ [((100 : Int), (100 : Int))]) := by
  decide

/-- C8, amended. On every frame where the drawing condition {position
present, pinch held, mouth closed} holds and a previous anchor position
exists (every frame of a pinch run except its first, whose position only
becomes the anchor), the frame's fingertip position is appended to the
accumulated stroke; and on a frame where the condition fails with a
non-empty accumulator, the accumulated points are sealed with the current
color, pushed onto stroke_history, and the accumulator is emptied (stated
on frames whose double-blink and left-wink gestures are idle — those
rework the history later in the same frame, per the fixed §5 order). -/
theorem C8_stroke_accumulation_and_seal :
    (∀ (s : LoopState) (i : FrameInput) (p q : Point),
        i.index_pos = some p → i.pinch = true → i.mouth = false →
        s.prev_index_pos = some q →
        (mainStep i s).current_stroke = s.current_stroke ++ [p]) ∧
    ∀ (s : LoopState) (i : FrameInput),
      drawCond i = false → s.current_stroke ≠ [] →
      i.dblink = false → i.lwink = false →
      (mainStep i s).stroke_history
        = s.stroke_history ++ [⟨s.current_stroke, s.current_color⟩] ∧
      (mainStep i s).current_stroke = [] := by
  constructor
  · intro s i p q hp hpin hm hq
    unfold mainStep
    rw [winkStep_current_stroke, saveStep_current_stroke, colorStep_current_stroke,
      eraseStep_current_stroke]
    exact drawSealStep_append i s p q hp hpin hm hq
  · intro s i hc hcs hdb hlw
    have hseal := drawSealStep_seal i s hc hcs
    unfold mainStep
    rw [winkStep_of_not_lwink _ _ hlw, saveStep_of_not_dblink _ _ hdb]
    constructor
    · rw [colorStep_stroke_history, eraseStep_stroke_history]
      exact hseal.1
    · rw [colorStep_current_stroke, eraseStep_current_stroke]
      exact hseal.2

/-- C8, witness: the append conjunct on the second frame of a concrete
pinch run, and the seal conjunct on the release frame that follows. -/
theorem C8_witness :
    ((mainStep (drawFrame (2, 0))
        (mainStep (drawFrame (0, 0)) (initState 1 4 (255, 255, 255)))).current_stroke
      = (mainStep (drawFrame (0, 0)) (initState 1 4 (255, 255, 255))).current_stroke
          ++ [((2 : Int), (0 : Int))]) ∧
    (mainStep idleFrame
        { initState 1 4 (255, 255, 255) with
            current_stroke := [(2, 0)], prev_index_pos := some (2, 0) }).stroke_history
      = [] ++ [⟨[(2, 0)], (255, 0, 0)⟩] ∧
    (mainStep idleFrame
        { initState 1 4 (255, 255, 255) with
            current_stroke := [(2, 0)], prev_index_pos := some (2, 0) }).current_stroke
      = [] :=
  ⟨C8_stroke_accumulation_and_seal.1 _ (drawFrame (2, 0)) (2, 0) (0, 0)
      rfl rfl rfl (by decide),
   C8_stroke_accumulation_and_seal.2 _ idleFrame rfl (by decide) rfl rfl⟩

/-! ## C9: hand loss resets everything; re-acquisition is raw -/

/-- C9. When the oracle reports no hand landmarks, HandController.process
leaves the brush position absent, the pinch flag false, and clears the
stored smoothing position; with the smoothing state cleared, the first
frame after the hand is found again reports the raw fingertip position,
blended against nothing. -/
theorem C9_hand_lost_reset_and_raw_reacquire :
    (∀ st : HandState, handProcess st none =
        { index_finger_pos := none, is_pinch := false, prev_index_finger_pos := none }) ∧
    ∀ (st : HandState) (hm : HandMeasure), st.prev_index_finger_pos = none →
      (handProcess st (some hm)).index_finger_pos = some hm.index_tip := by
  constructor
  · intro st
    rfl
  · intro st hm h
    unfold handProcess
    rw [h]
    cases st.is_pinch <;> rfl

/-- C9, witness: the reset evaluated on a concrete tracking state, and
the raw re-acquisition evaluated from the cleared initial state. -/
theorem C9_witness :
    (handProcess
        { index_finger_pos := some (5, 5), is_pinch := true,
          prev_index_finger_pos := some (5, 5) } none =
      { index_finger_pos := none, is_pinch := false, prev_index_finger_pos := none }) ∧
    (handProcess initHandState
        (some { index_tip := (7, 8), thumb_tip := (0, 0) })).index_finger_pos
      = some (7, 8) :=
  ⟨C9_hand_lost_reset_and_raw_reacquire.1 _,
   C9_hand_lost_reset_and_raw_reacquire.2 initHandState
      { index_tip := (7, 8), thumb_tip := (0, 0) } rfl⟩

/-! ## C10: the eraser branch touches only the canvas -/

/-- C10. The eraser section of the loop body mutates only the canvas
raster and the two anchor positions: on every frame, whatever the mouth
flag, stroke_history, redo_stack, the stroke accumulator and the active
color are exactly those of the incoming state — no record of an erasure
is appended anywhere. -/
theorem C10_erase_preserves_stacks (i : FrameInput) (s : LoopState) :
    (eraseStep i s).stroke_history = s.stroke_history ∧
    (eraseStep i s).redo_stack = s.redo_stack ∧
    (eraseStep i s).current_stroke = s.current_stroke ∧
    (eraseStep i s).current_color = s.current_color ∧
    (eraseStep i s).color_index = s.color_index := by
  unfold eraseStep
  split_ifs
  · cases i.index_pos with
    | none => exact ⟨rfl, rfl, rfl, rfl, rfl⟩
    | some p => cases s.prev_eraser_pos <;> exact ⟨rfl, rfl, rfl, rfl, rfl⟩
  · exact ⟨rfl, rfl, rfl, rfl, rfl⟩
